import Mathlib

/-!
# SelfSubjectRulesReview storage: effective rules of the calling user

A shallow embedding of `pkg/authorization/registry/selfsubjectrulesreview/storage.go`
(`REST.Create` and `REST.filterRulesByScopes`) and theorems about it.

Go values are modelled as follows.

* A slice is a `List`; a slice that may be `nil` and where the code tests for `nil`
  (`Spec.Scopes`) is an `Option (List String)`.
* A Go `error` is `GoError`; a pair `(value, error)` of which the code reads only one
  side is a `Result`; the pair returned by `GetEffectivePolicyRules`, of which the code
  reads both sides, is a product with an `Option GoError`.
* The functions of other packages that `storage.go` calls (`BreakdownRule`, `CompactRules`,
  `Covers`, `ScopesToRules`, `SortableRuleSlice.Less`, the constant `ScopesKey`) are not part
  of the embedded file: `Create` takes them as the fields of `Packages`.
* The calls made on the two collaborators that reach outside the process (the rule resolver
  and the scope translator) are recorded, in order, in the `calls` field of the outcome.
-/

namespace RulesReview

/-! ## Data model -/

/-- Modelled from the spec: the type `authorizationapi.PolicyRule` (section 3, "PolicyRule"),
whose declaration is in another package. Each set of strings is a list. -/
structure PolicyRule where
  verbs : List String
  apiGroups : List String
  resources : List String
  resourceNames : List String
  nonResourceURLs : List String
deriving DecidableEq

/-- A Go `error` value as `storage.go` produces and reads it: `kapierrors.NewBadRequest`
builds a bad-request status error, `fmt.Errorf` and the collaborators a plain one. The only
operation applied to an error is `Error()`. -/
inductive GoError where
  | badRequest (message : String)
  | plain (message : String)
deriving DecidableEq

/-- The method `err.Error()`. -/
def GoError.Error : GoError → String
  | .badRequest message => message
  | .plain message => message

/-- The `user.Info` found in the request context; `extra` is the map returned by
`GetExtra()`, as an association list. -/
structure UserInfo where
  name : String
  uid : String
  groups : List String
  extra : List (String × List String)
deriving DecidableEq

/-- The expression `user.GetExtra()[key]`: the value stored under `key`, and the nil slice
when the key is absent. -/
def UserInfo.GetExtra (user : UserInfo) (key : String) : List String :=
  (user.extra.lookup key).getD []

/-- The request context `kapi.Context`, reduced to the two values `Create` reads from it. -/
structure Context where
  ns : Option String
  user : Option UserInfo
deriving DecidableEq

/-- The function `kapi.NamespaceValue`: the namespace of the context, empty when there is none. -/
def NamespaceValue (ctx : Context) : String :=
  ctx.ns.getD ""

/-- The function `kapi.UserFrom`: the user of the context and whether there is one. -/
def UserFrom (ctx : Context) : Option UserInfo :=
  ctx.user

/-- The field `SelfSubjectRulesReview.Spec`; `Scopes` is `none` for the nil slice. -/
structure SelfSubjectRulesReviewSpec where
  Scopes : Option (List String)
deriving DecidableEq

/-- The field `SelfSubjectRulesReview.Status`. -/
structure SubjectRulesReviewStatus where
  Rules : List PolicyRule
  EvaluationError : String
deriving DecidableEq

/-- The object `authorizationapi.SelfSubjectRulesReview`. -/
structure SelfSubjectRulesReview where
  Spec : SelfSubjectRulesReviewSpec
  Status : SubjectRulesReviewStatus
deriving DecidableEq

/-- A `runtime.Object` handed to `Create`: a (non-nil) `*SelfSubjectRulesReview`, or an
object of another type, of which only the `%#v` rendering is kept. -/
inductive RuntimeObject where
  | selfSubjectRulesReview (rulesReview : SelfSubjectRulesReview)
  | other (goSyntax : String)
deriving DecidableEq

/-- What `Create` returns: `.ok ret` for `(ret, nil)` and `.error err` for `(nil, err)`. -/
inductive Result (α : Type) where
  | ok (ret : α)
  | error (err : GoError)
deriving DecidableEq

/-- A call made on a collaborator that reaches outside the process. -/
inductive Call where
  | GetEffectivePolicyRules (ctx : Context)
  | ScopesToRules (scopes : List String) (ns : String)
deriving DecidableEq

/-- A returned value together with the collaborator calls made to compute it, oldest first. -/
structure Outcome (α : Type) where
  result : Result α
  calls : List Call
deriving DecidableEq

/-- The functions and constants of other packages used by `storage.go`.
`ScopesToRules` and `CompactRules` return `(rules, error)` and the code reads the rules only
when the error is nil; `Covers` returns whether the rules are covered and the uncovered rest. -/
structure Packages (G : Type) where
  ScopesKey : String
  BreakdownRule : PolicyRule → List PolicyRule
  CompactRules : List PolicyRule → Result (List PolicyRule)
  Covers : List PolicyRule → List PolicyRule → Bool × List PolicyRule
  ScopesToRules : List String → String → G → Result (List PolicyRule)
  Less : PolicyRule → PolicyRule → Bool

/-- The struct `REST`: the rule resolver (its method `GetEffectivePolicyRules`, which returns
the rules it could compute together with an optional error) and the cluster policy getter. -/
structure REST (G : Type) where
  ruleResolver : Context → List PolicyRule × Option GoError
  clusterPolicyGetter : G

/-! ## `sort.Sort(SortableRuleSlice(rules))` -/

/-- One step of insertion sort: `x` goes before the first element it is `Less` than. -/
def insertRule (less : PolicyRule → PolicyRule → Bool) (x : PolicyRule) :
    List PolicyRule → List PolicyRule
  | [] => [x]
  | y :: ys => if less x y then x :: y :: ys else y :: insertRule less x ys

/-- The call `sort.Sort(SortableRuleSlice(rules))`, with the insertion sort that the standard
library runs on short slices: the elements are inserted one by one, from the left, into the
sorted prefix, each before the first element it is `Less` than. -/
def sortRules (less : PolicyRule → PolicyRule → Bool) (rules : List PolicyRule) :
    List PolicyRule :=
  rules.foldl (fun sorted rule => insertRule less rule sorted) []

/-! ## `storage.go` -/

/-- The method `REST.filterRulesByScopes` (storage.go, lines 85-99). -/
def filterRulesByScopes {G : Type} (p : Packages G) (r : REST G)
    (rules : List PolicyRule) (scopes : List String) (ns : String) :
    Outcome (List PolicyRule) :=
  match p.ScopesToRules scopes ns r.clusterPolicyGetter with
  | .error err => ⟨.error err, [.ScopesToRules scopes ns]⟩
  | .ok scopeRules =>
    let filteredRules := rules.foldl
      (fun filteredRules rule =>
        if (p.Covers scopeRules [rule]).1 then filteredRules ++ [rule] else filteredRules)
      []
    ⟨.ok filteredRules, [.ScopesToRules scopes ns]⟩

/-- The loop of `REST.Create` over the resolver's rules (storage.go, lines 45-48): the
breakdown of each rule is appended to `rules`. -/
def breakdownRules {G : Type} (p : Packages G) (policyRules : List PolicyRule) :
    List PolicyRule :=
  policyRules.foldl (fun rules rule => rules ++ p.BreakdownRule rule) []

/-- The `switch` of `REST.Create` (storage.go, lines 50-65), entered with the variables
`rules` and `err` and the calls made so far. It returns early with an error, or leaves the
values of `rules` and `err` that the rest of `Create` reads: an assignment
`rules, err = r.filterRulesByScopes(...)` that does not return early leaves `err` nil; when
no case applies (`Spec.Scopes` is an empty list that is not nil) both are unchanged. -/
def scopeSwitch {G : Type} (p : Packages G) (r : REST G)
    (rulesReview : SelfSubjectRulesReview) (user : UserInfo) (ns : String)
    (rules : List PolicyRule) (err : Option GoError)
    (calls : List Call) : Outcome (List PolicyRule × Option GoError) :=
  match rulesReview.Spec.Scopes with
  | none =>
    let scopes := user.GetExtra p.ScopesKey
    if scopes.length > 0 then
      match filterRulesByScopes p r rules scopes ns with
      | ⟨.error err, filterCalls⟩ => ⟨.error err, calls ++ filterCalls⟩
      | ⟨.ok rules, filterCalls⟩ => ⟨.ok (rules, none), calls ++ filterCalls⟩
    else ⟨.ok (rules, err), calls⟩
  | some specScopes =>
    if specScopes.length > 0 then
      match filterRulesByScopes p r rules specScopes ns with
      | ⟨.error err, filterCalls⟩ => ⟨.error err, calls ++ filterCalls⟩
      | ⟨.ok rules, filterCalls⟩ => ⟨.ok (rules, none), calls ++ filterCalls⟩
    else ⟨.ok (rules, err), calls⟩

/-- The compaction step of `REST.Create` (storage.go, lines 67-69): the compacted rules
replace `rules` only when `CompactRules` returns no error. -/
def compactedOrSame {G : Type} (p : Packages G) (rules : List PolicyRule) : List PolicyRule :=
  match p.CompactRules rules with
  | .ok compactedRules => compactedRules
  | .error _ => rules

/-- The value of `ret.Status.EvaluationError` (storage.go, lines 72-80): the message of `err`
when `err` is not nil, and the empty string of the zero value otherwise. -/
def evaluationError (err : Option GoError) : String :=
  match err with
  | some err => err.Error
  | none => ""

/-- The method `REST.Create` (storage.go, lines 30-83). -/
def Create {G : Type} (p : Packages G) (r : REST G) (ctx : Context) (obj : RuntimeObject) :
    Outcome SelfSubjectRulesReview :=
  match obj with
  | .other goSyntax =>
    ⟨.error (.badRequest ("not a SelfSubjectRulesReview: " ++ goSyntax)), []⟩
  | .selfSubjectRulesReview rulesReview =>
    let ns := NamespaceValue ctx
    if ns.length = 0 then
      ⟨.error (.badRequest ("namespace is required on this type: " ++ ns)), []⟩
    else
      match UserFrom ctx with
      | none => ⟨.error (.plain "user missing from context"), []⟩
      | some user =>
        let resolved := r.ruleResolver ctx
        let policyRules := resolved.1
        let err := resolved.2
        let rules := breakdownRules p policyRules
        match scopeSwitch p r rulesReview user ns rules err [.GetEffectivePolicyRules ctx] with
        | ⟨.error err, calls⟩ => ⟨.error err, calls⟩
        | ⟨.ok (rules, err), calls⟩ =>
          let rules := compactedOrSame p rules
          let rules := sortRules p.Less rules
          let ret : SelfSubjectRulesReview :=
            { Spec := { Scopes := none }
              Status := { Rules := rules, EvaluationError := evaluationError err } }
          ⟨.ok ret, calls⟩

/-- The review that `REST.Create` returns when the rules `rules` and the error `err` reach
the compaction step: `rules` compacted (when compaction succeeds) and sorted, with the
message of `err` as the evaluation error. -/
def reviewOf {G : Type} (p : Packages G) (rules : List PolicyRule) (err : Option GoError) :
    SelfSubjectRulesReview :=
  { Spec := { Scopes := none }
    Status :=
      { Rules := sortRules p.Less (compactedOrSame p rules)
        EvaluationError := evaluationError err } }

/-- The result of filtering by the scope list `scopes`, as the specification words it
(section 4.6): the broken-down rules of the resolver are filtered with the rules of
`scopes`, the filtered rules are compacted and sorted; a scope list that does not translate
fails the request. -/
def reviewFilteredBy {G : Type} (p : Packages G) (r : REST G) (policyRules : List PolicyRule)
    (scopes : List String) (ns : String) : Result SelfSubjectRulesReview :=
  match (filterRulesByScopes p r (policyRules.flatMap p.BreakdownRule) scopes ns).result with
  | .error err => .error err
  | .ok filteredRules => .ok (reviewOf p filteredRules none)

/-! ## The rule engine of the specification

`BreakdownRule`, `Covers`, `CompactRules` and the order of `SortableRuleSlice` live in the
packages `rulevalidation` and `authorizationapi`. The definitions below follow sections 3, 4.1
to 4.4 and 6 of the specification; they are used where a property is stated for the rule
engine of the specification rather than for every `Packages`. -/

namespace SpecModel

/-- Modelled from the spec: the shape of a rule (section 3), for `rulevalidation.BreakdownRule`.
A rule without apiGroups and resources but with nonResourceURLs is URL-shaped; section 4.2
lets such a rule restrict verbs, so the verbs are not looked at. -/
def isURLShaped (rule : PolicyRule) : Bool :=
  rule.apiGroups.isEmpty && rule.resources.isEmpty && !rule.nonResourceURLs.isEmpty

/-- Modelled from the spec: `rulevalidation.BreakdownRule` (section 4.2). A resource-shaped
rule gives the cross product verbs x apiGroups x resources, each atomic rule keeping the
original resourceNames; a URL-shaped rule gives one rule per nonResourceURL, crossed with the
verbs when the rule restricts verbs. -/
def BreakdownRule (rule : PolicyRule) : List PolicyRule :=
  if isURLShaped rule then
    if rule.verbs.isEmpty then
      rule.nonResourceURLs.map fun url => { rule with nonResourceURLs := [url] }
    else
      rule.verbs.flatMap fun verb =>
        rule.nonResourceURLs.map fun url =>
          { rule with verbs := [verb], nonResourceURLs := [url] }
  else
    rule.verbs.flatMap fun verb =>
      rule.apiGroups.flatMap fun apiGroup =>
        rule.resources.map fun resource =>
          { rule with verbs := [verb], apiGroups := [apiGroup], resources := [resource] }

/-- Modelled from the spec: one dimension of the coverage test of `rulevalidation.Covers`
(section 4.3, step 3): the covering value is the wildcard or the value checked. -/
def dimensionCovers (covering checked : List String) : Bool :=
  decide (covering = ["*"]) || decide (covering = checked)

/-- Modelled from the spec: the resourceNames dimension of `rulevalidation.Covers`
(section 4.3, step 3): the covering rule is unrestricted, or the checked names are contained
in the covering names; an unrestricted checked rule is never covered by a restricted one. -/
def resourceNamesCover (covering checked : List String) : Bool :=
  covering.isEmpty || (!checked.isEmpty && checked.all fun name => covering.contains name)

/-- Modelled from the spec: path matching for nonResourceURLs (section 4.1): a pattern matches
the path equal to it, and a pattern with a trailing `*` every path that starts with the rest
of the pattern. -/
def pathMatches (pattern path : String) : Bool :=
  decide (pattern = path) ||
    (pattern.toList.getLast? == some '*' && pattern.toList.dropLast.isPrefixOf path.toList)

/-- Modelled from the spec: the nonResourceURLs dimension of `rulevalidation.Covers`
(section 4.1): URL rules never cover resource-shaped rules and the other way round; a URL is
covered when a pattern of the covering rule matches it. -/
def urlsCover (covering checked : List String) : Bool :=
  if checked.isEmpty then covering.isEmpty
  else checked.all fun url => covering.any fun pattern => pathMatches pattern url

/-- Modelled from the spec: whether the atomic rule `c` covers the atomic rule `r` in
`rulevalidation.Covers` (section 4.3, step 3). -/
def atomCovers (c r : PolicyRule) : Bool :=
  dimensionCovers c.verbs r.verbs && dimensionCovers c.apiGroups r.apiGroups &&
    dimensionCovers c.resources r.resources &&
    resourceNamesCover c.resourceNames r.resourceNames &&
    urlsCover c.nonResourceURLs r.nonResourceURLs

/-- Modelled from the spec: the five set fields of a rule (section 3), the dimensions in
which `rulevalidation.CompactRules` merges. -/
inductive Dimension where
  | verbs | apiGroups | resources | resourceNames | nonResourceURLs
deriving DecidableEq

/-- The set of a rule in one dimension. -/
def Dimension.get (d : Dimension) (rule : PolicyRule) : List String :=
  match d with
  | .verbs => rule.verbs
  | .apiGroups => rule.apiGroups
  | .resources => rule.resources
  | .resourceNames => rule.resourceNames
  | .nonResourceURLs => rule.nonResourceURLs

/-- The rule with its set in one dimension replaced. -/
def Dimension.set (d : Dimension) (rule : PolicyRule) (values : List String) : PolicyRule :=
  match d with
  | .verbs => { rule with verbs := values }
  | .apiGroups => { rule with apiGroups := values }
  | .resources => { rule with resources := values }
  | .resourceNames => { rule with resourceNames := values }
  | .nonResourceURLs => { rule with nonResourceURLs := values }

/-- Modelled from the spec: the order in which `rulevalidation.CompactRules` merges the
dimensions (section 4.4): the verbs first. -/
def Dimension.all : List Dimension :=
  [.verbs, .apiGroups, .resources, .resourceNames, .nonResourceURLs]

/-- Two lists hold the same set of strings. -/
def sameSet (a b : List String) : Bool :=
  (a.all fun x => b.contains x) && (b.all fun x => a.contains x)

/-- Modelled from the spec: the test of `rulevalidation.CompactRules` for merging two rules
(section 4.4): they are identical in every dimension except `d`. -/
def agreeExcept (d : Dimension) (a b : PolicyRule) : Bool :=
  Dimension.all.all fun e => decide (e = d) || sameSet (e.get a) (e.get b)

/-- Modelled from the spec: the union taken by `rulevalidation.CompactRules` (section 4.4) in
dimension `d`. An empty resourceNames set means "unrestricted" (section 3), so the union with
it is unrestricted. -/
def unionIn (d : Dimension) (a b : List String) : List String :=
  if d = .resourceNames ∧ (a.isEmpty ∨ b.isEmpty) then []
  else a ++ b.filter fun x => !a.contains x

/-- Modelled from the spec: `rulevalidation.CompactRules` (section 4.4) adds one rule to the
rules merged so far: it is merged into the first rule that differs from it in dimension `d`
only, and appended when there is none. -/
def mergeInto (d : Dimension) : List PolicyRule → PolicyRule → List PolicyRule
  | [], rule => [rule]
  | merged :: rest, rule =>
    if agreeExcept d merged rule then d.set merged (unionIn d (d.get merged) (d.get rule)) :: rest
    else merged :: mergeInto d rest rule

/-- Modelled from the spec: one pass of `rulevalidation.CompactRules` (section 4.4): the verbs
are merged first, then the other dimensions in turn. -/
def compactPass (rules : List PolicyRule) : List PolicyRule :=
  Dimension.all.foldl (fun rules d => rules.foldl (mergeInto d) []) rules

/-- Modelled from the spec: the fixed-point loop of `rulevalidation.CompactRules`
(section 4.4): passes are repeated until one merges nothing. A pass that merges removes a
rule, so `fuel` passes, with `fuel` the number of rules, reach the fixed point. -/
def compactLoop : Nat → List PolicyRule → List PolicyRule
  | 0, rules => rules
  | fuel + 1, rules =>
    let next := compactPass rules
    if next.length < rules.length then compactLoop fuel next else next

/-- Modelled from the spec: the malformed input of `rulevalidation.CompactRules`
(section 4.4): one rule mixing resource-shaped and URL-shaped fields. -/
def isMalformed (rule : PolicyRule) : Bool :=
  (!rule.apiGroups.isEmpty || !rule.resources.isEmpty || !rule.resourceNames.isEmpty) &&
    !rule.nonResourceURLs.isEmpty

/-- Modelled from the spec: `rulevalidation.CompactRules` (section 4.4). It fails with an
internal error on malformed input and merges the rules to a fixed point otherwise. -/
def CompactRules (rules : List PolicyRule) : Result (List PolicyRule) :=
  if rules.any isMalformed then
    .error (.plain "rule mixes resource and non-resource URL fields")
  else .ok (compactLoop rules.length rules)

/-- Modelled from the spec: `rulevalidation.Covers` (section 4.3). The rules to check and the
covering rules are broken down; an atomic rule to check is covered when one atomic covering
rule covers it; the uncovered atomic rules are returned compacted, and the answer is true
when there is none. -/
def Covers (coveringRules ruleToCheck : List PolicyRule) : Bool × List PolicyRule :=
  let atoms := ruleToCheck.flatMap BreakdownRule
  let coveringAtoms := coveringRules.flatMap BreakdownRule
  let uncovered := atoms.filter fun r => !coveringAtoms.any fun c => atomCovers c r
  let uncoveredParts :=
    match CompactRules uncovered with
    | .ok compacted => compacted
    | .error _ => uncovered
  (uncovered.isEmpty, uncoveredParts)

/-- The lexicographic order on lists built from a strict order on the elements; a proper
initial segment comes first. -/
def lexLess {α : Type} (lt : α → α → Bool) : List α → List α → Bool
  | [], [] => false
  | [], _ :: _ => true
  | _ :: _, [] => false
  | a :: as, b :: bs => if lt a b then true else if lt b a then false else lexLess lt as bs

/-- The order of code points. -/
def charLess (c d : Char) : Bool :=
  decide (c.toNat < d.toNat)

/-- The comparison of two strings, character by character. -/
def stringLess (a b : String) : Bool :=
  lexLess charLess a.toList b.toList

/-- A boolean test that is a strict total order: asymmetric, transitive, and with no two
different values left unordered. -/
structure StrictTotal {α : Type} (lt : α → α → Bool) : Prop where
  asymm : ∀ a b, lt a b = true → lt b a = false
  trans : ∀ a b c, lt a b = true → lt b c = true → lt a c = true
  total : ∀ a b, lt a b = false → lt b a = false → a = b

/-- Insertion of a string into a sorted list of strings. -/
def insertString (x : String) : List String → List String
  | [] => [x]
  | y :: ys => if stringLess x y then x :: y :: ys else y :: insertString x ys

/-- Modelled from the spec: one component of the sort key of
`authorizationapi.SortableRuleSlice` (section 6): the sorted values of a set, joined. -/
def joinSorted (values : List String) : String :=
  ",".intercalate (values.foldl (fun sorted x => insertString x sorted) [])

/-- Modelled from the spec: the sort key of `authorizationapi.SortableRuleSlice` (section 6):
the tuple of the joined sorted verbs, apiGroups, resources, resourceNames and
nonResourceURLs. -/
def sortKey (rule : PolicyRule) : List String :=
  Dimension.all.map fun d => joinSorted (d.get rule)

/-- Modelled from the spec: `authorizationapi.SortableRuleSlice.Less` (section 6): the
lexicographic order of the sort keys. -/
def Less (a b : PolicyRule) : Bool :=
  lexLess stringLess (sortKey a) (sortKey b)

/-- The packages of the specification around a scope translator and the name of the scope
claims in the user's extra. -/
def packages {G : Type} (scopesKey : String)
    (scopesToRules : List String → String → G → Result (List PolicyRule)) :
    Packages G where
  ScopesKey := scopesKey
  BreakdownRule := BreakdownRule
  CompactRules := CompactRules
  Covers := Covers
  ScopesToRules := scopesToRules
  Less := Less

end SpecModel

/-! ## Example values -/

namespace Example

/-- The compound rule `{verbs: [get, delete], apiGroups: [apiGroup], resources: [secrets]}`. -/
def getDeleteSecretsIn (apiGroup : String) : PolicyRule :=
  { verbs := ["get", "delete"], apiGroups := [apiGroup], resources := ["secrets"],
    resourceNames := [], nonResourceURLs := [] }

/-- The atomic rule `{verbs: [get], apiGroups: [apiGroup], resources: [secrets]}`. -/
def getSecretsIn (apiGroup : String) : PolicyRule :=
  { verbs := ["get"], apiGroups := [apiGroup], resources := ["secrets"],
    resourceNames := [], nonResourceURLs := [] }

/-- The atomic rule `{verbs: [delete], apiGroups: [apiGroup], resources: [secrets]}`. -/
def deleteSecretsIn (apiGroup : String) : PolicyRule :=
  { verbs := ["delete"], apiGroups := [apiGroup], resources := ["secrets"],
    resourceNames := [], nonResourceURLs := [] }

/-- The compound rule `{verbs: [get, delete], apiGroups: [""], resources: [secrets]}`, in
the core group. -/
def getDeleteSecrets : PolicyRule :=
  getDeleteSecretsIn ""

/-- The atomic rule `{verbs: [get], apiGroups: [""], resources: [secrets]}`. -/
def getSecrets : PolicyRule :=
  getSecretsIn ""

/-- The atomic rule `{verbs: [delete], apiGroups: [""], resources: [secrets]}`. -/
def deleteSecrets : PolicyRule :=
  deleteSecretsIn ""

/-- The atomic rule `{verbs: [delete], apiGroups: [""], resources: [pods]}`. -/
def deletePods : PolicyRule :=
  { verbs := ["delete"], apiGroups := [""], resources := ["pods"],
    resourceNames := [], nonResourceURLs := [] }

/-- The scope rule of the specification's example as it is written there, without
apiGroups. -/
def getSecretsNoGroup : PolicyRule :=
  { verbs := ["get"], apiGroups := [], resources := ["secrets"],
    resourceNames := [], nonResourceURLs := [] }

/-- The compound rule of the specification's example as it is written there, without
apiGroups. -/
def getDeleteSecretsNoGroup : PolicyRule :=
  { verbs := ["get", "delete"], apiGroups := [], resources := ["secrets"],
    resourceNames := [], nonResourceURLs := [] }

/-- A scope translator that knows one scope, `secret-reader`, which implies `getSecrets`. -/
def scopesToRules (scopes : List String) (_ns : String) (_getter : Unit) :
    Result (List PolicyRule) :=
  if scopes.all fun scope => scope == "secret-reader" then .ok [getSecrets]
  else .error (.plain "unknown scope")

/-- The rule engine of the specification around `scopesToRules`; the scope claims of a user
are stored under `scopes`. -/
def packages : Packages Unit :=
  SpecModel.packages "scopes" scopesToRules

/-- The packages `packages` with a compaction that fails on every input. -/
def packagesWithoutCompaction : Packages Unit :=
  { packages with CompactRules := fun _ => .error (.plain "compaction failed") }

/-- A storage whose resolver returns `policyRules` and `err` for every context. -/
def rest (policyRules : List PolicyRule) (err : Option GoError) : REST Unit :=
  { ruleResolver := fun _ => (policyRules, err), clusterPolicyGetter := () }

/-- A user with the scope claims `claims`; without claims the key is absent. -/
def alice (claims : List String) : UserInfo :=
  { name := "alice", uid := "", groups := [],
    extra := if claims.isEmpty then [] else [("scopes", claims)] }

/-- The context of a request by `alice` in the namespace `ns`. -/
def ctx (claims : List String) : Context :=
  { ns := some "ns", user := some (alice claims) }

/-- A request with the scope list `scopes`. -/
def review (scopes : Option (List String)) : SelfSubjectRulesReview :=
  { Spec := { Scopes := scopes }, Status := { Rules := [], EvaluationError := "" } }

/-- The error of a resolver that could not read a policy binding. -/
def resolverError : GoError :=
  .plain "policy binding not found"

end Example

/-! ## The two loops of `storage.go` -/

theorem foldl_append_eq {α β : Type} (f : β → List α) (acc : List α) (l : List β) :
    l.foldl (fun rules rule => rules ++ f rule) acc = acc ++ l.flatMap f := by
  induction l generalizing acc with
  | nil => simp
  | cons x xs ih => simp [ih, List.append_assoc]

/-- The loop over the resolver's rules concatenates their breakdowns, in order. -/
theorem breakdownRules_eq {G : Type} (p : Packages G) (policyRules : List PolicyRule) :
    breakdownRules p policyRules = policyRules.flatMap p.BreakdownRule := by
  simp [breakdownRules, foldl_append_eq]

theorem foldl_keep_eq {α : Type} (keep : α → Bool) (acc : List α) (l : List α) :
    l.foldl (fun kept x => if keep x then kept ++ [x] else kept) acc = acc ++ l.filter keep := by
  induction l generalizing acc with
  | nil => simp
  | cons x xs ih =>
    by_cases h : keep x = true
    · simp [ih, h, List.append_assoc]
    · simp [ih, h]

/-- When the scopes translate, `filterRulesByScopes` keeps the rules that the scope rules
cover, and consults the translator once. -/
theorem filterRulesByScopes_ok {G : Type} (p : Packages G) (r : REST G)
    (rules : List PolicyRule) (scopes : List String) (ns : String)
    (scopeRules : List PolicyRule)
    (h : p.ScopesToRules scopes ns r.clusterPolicyGetter = .ok scopeRules) :
    filterRulesByScopes p r rules scopes ns =
      ⟨.ok (rules.filter fun rule => (p.Covers scopeRules [rule]).1),
        [.ScopesToRules scopes ns]⟩ := by
  simp [filterRulesByScopes, h, foldl_keep_eq]

/-- When the scopes do not translate, `filterRulesByScopes` returns the translator's error. -/
theorem filterRulesByScopes_error {G : Type} (p : Packages G) (r : REST G)
    (rules : List PolicyRule) (scopes : List String) (ns : String) (e : GoError)
    (h : p.ScopesToRules scopes ns r.clusterPolicyGetter = .error e) :
    filterRulesByScopes p r rules scopes ns = ⟨.error e, [.ScopesToRules scopes ns]⟩ := by
  simp [filterRulesByScopes, h]

/-! ## Sorting -/

theorem perm_insertRule (less : PolicyRule → PolicyRule → Bool) (x : PolicyRule)
    (l : List PolicyRule) : (insertRule less x l).Perm (x :: l) := by
  induction l with
  | nil => simp [insertRule]
  | cons y ys ih =>
    by_cases h : less x y = true
    · simp [insertRule, h]
    · simp only [insertRule, h]
      exact ((List.Perm.cons y ih).trans (List.Perm.swap x y ys))

theorem sorted_insertRule (less : PolicyRule → PolicyRule → Bool)
    (hasymm : ∀ a b, less a b = true → less b a = false)
    (htrans : ∀ a b c, less b a = false → less c b = false → less c a = false)
    (x : PolicyRule) (l : List PolicyRule)
    (hl : l.Pairwise fun a b => less b a = false) :
    (insertRule less x l).Pairwise fun a b => less b a = false := by
  induction l with
  | nil => simp [insertRule]
  | cons y ys ih =>
    rw [List.pairwise_cons] at hl
    by_cases h : less x y = true
    · simp only [insertRule, h, if_true]
      refine List.pairwise_cons.2 ⟨?_, List.pairwise_cons.2 hl⟩
      intro z hz
      rcases List.mem_cons.1 hz with rfl | hz
      · exact hasymm _ _ h
      · exact htrans _ _ _ (hasymm _ _ h) (hl.1 z hz)
    · simp only [insertRule, h]
      refine List.pairwise_cons.2 ⟨?_, ih hl.2⟩
      intro z hz
      rcases List.mem_cons.1 ((perm_insertRule less x ys).mem_iff.1 hz) with rfl | hz
      · simpa using h
      · exact hl.1 z hz

theorem foldl_insertRule_perm (less : PolicyRule → PolicyRule → Bool)
    (acc l : List PolicyRule) :
    (l.foldl (fun sorted rule => insertRule less rule sorted) acc).Perm (acc ++ l) := by
  induction l generalizing acc with
  | nil => simp
  | cons x xs ih =>
    refine (ih (insertRule less x acc)).trans ?_
    refine ((perm_insertRule less x acc).append_right xs).trans ?_
    simpa using (@List.perm_middle _ x acc xs).symm

theorem foldl_insertRule_sorted (less : PolicyRule → PolicyRule → Bool)
    (hasymm : ∀ a b, less a b = true → less b a = false)
    (htrans : ∀ a b c, less b a = false → less c b = false → less c a = false)
    (acc l : List PolicyRule) (hacc : acc.Pairwise fun a b => less b a = false) :
    (l.foldl (fun sorted rule => insertRule less rule sorted) acc).Pairwise
      fun a b => less b a = false := by
  induction l generalizing acc with
  | nil => simpa using hacc
  | cons x xs ih => exact ih _ (sorted_insertRule less hasymm htrans x acc hacc)

/-- Sorting rearranges the rules and neither adds nor loses one. -/
theorem perm_sortRules (less : PolicyRule → PolicyRule → Bool) (rules : List PolicyRule) :
    (sortRules less rules).Perm rules := by
  simpa [sortRules] using foldl_insertRule_perm less [] rules

/-- For a strict weak order `less`, the sorted rules are in non-decreasing order. -/
theorem sorted_sortRules (less : PolicyRule → PolicyRule → Bool)
    (hasymm : ∀ a b, less a b = true → less b a = false)
    (htrans : ∀ a b c, less b a = false → less c b = false → less c a = false)
    (rules : List PolicyRule) :
    (sortRules less rules).Pairwise fun a b => less b a = false :=
  foldl_insertRule_sorted less hasymm htrans [] rules List.Pairwise.nil

/-- Two sorted arrangements of the same rules are equal when `less` leaves no tie between
different rules. -/
theorem sorted_perm_unique (less : PolicyRule → PolicyRule → Bool)
    (htotal : ∀ a b, less a b = false → less b a = false → a = b)
    (l₁ l₂ : List PolicyRule) (hp : l₁.Perm l₂)
    (h₁ : l₁.Pairwise fun a b => less b a = false)
    (h₂ : l₂.Pairwise fun a b => less b a = false) : l₁ = l₂ := by
  induction l₁ generalizing l₂ with
  | nil => exact (List.nil_perm.1 hp).symm
  | cons x xs ih =>
    cases l₂ with
    | nil => exact absurd hp.length_eq (by simp)
    | cons y ys =>
      rw [List.pairwise_cons] at h₁ h₂
      have hxy : x = y := by
        rcases List.mem_cons.1 (hp.mem_iff.1 (List.mem_cons_self x xs)) with h | h
        · exact h
        · rcases List.mem_cons.1 (hp.mem_iff.2 (List.mem_cons_self y ys)) with h' | h'
          · exact h'.symm
          · exact htotal x y (h₂.1 x h) (h₁.1 y h')
      subst hxy
      rw [ih ys (List.Perm.cons_inv hp) h₁.2 h₂.2]

/-! ## The order of the specification -/

theorem lexLess_asymm {α : Type} (lt : α → α → Bool) (h : SpecModel.StrictTotal lt) :
    ∀ l₁ l₂ : List α, SpecModel.lexLess lt l₁ l₂ = true → SpecModel.lexLess lt l₂ l₁ = false
  | [], [], _ => rfl
  | [], _ :: _, _ => rfl
  | _ :: _, [], h₁ => by simp [SpecModel.lexLess] at h₁
  | a :: as, b :: bs, h₁ => by
    by_cases hab : lt a b = true
    · simp [SpecModel.lexLess, h.asymm a b hab, hab]
    · by_cases hba : lt b a = true
      · simp [SpecModel.lexLess, hab, hba] at h₁
      · simp only [SpecModel.lexLess, hab, hba] at h₁ ⊢
        simpa using lexLess_asymm lt h as bs (by simpa using h₁)

theorem lexLess_total {α : Type} (lt : α → α → Bool) (h : SpecModel.StrictTotal lt) :
    ∀ l₁ l₂ : List α, SpecModel.lexLess lt l₁ l₂ = false →
      SpecModel.lexLess lt l₂ l₁ = false → l₁ = l₂
  | [], [], _, _ => rfl
  | [], _ :: _, h₁, _ => by simp [SpecModel.lexLess] at h₁
  | _ :: _, [], _, h₂ => by simp [SpecModel.lexLess] at h₂
  | a :: as, b :: bs, h₁, h₂ => by
    by_cases hab : lt a b = true
    · simp [SpecModel.lexLess, hab] at h₁
    · by_cases hba : lt b a = true
      · simp [SpecModel.lexLess, hba] at h₂
      · simp only [SpecModel.lexLess, hab, hba] at h₁ h₂
        have hx : a = b := h.total a b (by simpa using hab) (by simpa using hba)
        rw [hx, lexLess_total lt h as bs (by simpa using h₁) (by simpa using h₂)]

theorem lexLess_trans {α : Type} (lt : α → α → Bool) (h : SpecModel.StrictTotal lt) :
    ∀ l₁ l₂ l₃ : List α, SpecModel.lexLess lt l₁ l₂ = true → SpecModel.lexLess lt l₂ l₃ = true →
      SpecModel.lexLess lt l₁ l₃ = true
  | [], [], _, h₁, _ => by simp [SpecModel.lexLess] at h₁
  | _ :: _, [], _, h₁, _ => by simp [SpecModel.lexLess] at h₁
  | [], _ :: _, [], _, h₂ => by simp [SpecModel.lexLess] at h₂
  | [], _ :: _, _ :: _, _, _ => rfl
  | _ :: _, _ :: _, [], _, h₂ => by simp [SpecModel.lexLess] at h₂
  | a :: as, b :: bs, c :: cs, h₁, h₂ => by
    by_cases hab : lt a b = true
    · by_cases hbc : lt b c = true
      · simp [SpecModel.lexLess, h.trans a b c hab hbc]
      · by_cases hcb : lt c b = true
        · simp [SpecModel.lexLess, hbc, hcb] at h₂
        · have hx : b = c := h.total b c (by simpa using hbc) (by simpa using hcb)
          subst hx
          simp [SpecModel.lexLess, hab]
    · by_cases hba : lt b a = true
      · simp [SpecModel.lexLess, hab, hba] at h₁
      · have hx : a = b := h.total a b (by simpa using hab) (by simpa using hba)
        subst hx
        simp only [SpecModel.lexLess, hab] at h₁
        by_cases hac : lt a c = true
        · simp [SpecModel.lexLess, hac]
        · by_cases hca : lt c a = true
          · simp [SpecModel.lexLess, hac, hca] at h₂
          · simp only [SpecModel.lexLess, hac, hca] at h₂ ⊢
            simpa using lexLess_trans lt h as bs cs (by simpa using h₁) (by simpa using h₂)

theorem lexLess_strictTotal {α : Type} (lt : α → α → Bool) (h : SpecModel.StrictTotal lt) :
    SpecModel.StrictTotal (SpecModel.lexLess lt) :=
  ⟨lexLess_asymm lt h, lexLess_trans lt h, lexLess_total lt h⟩

theorem charLess_strictTotal : SpecModel.StrictTotal SpecModel.charLess := by
  refine ⟨?_, ?_, ?_⟩
  · intro a b h
    simp only [SpecModel.charLess, decide_eq_true_eq, decide_eq_false_iff_not] at *
    omega
  · intro a b c h₁ h₂
    simp only [SpecModel.charLess, decide_eq_true_eq] at *
    omega
  · intro a b h₁ h₂
    simp only [SpecModel.charLess, decide_eq_false_iff_not] at *
    have : a.toNat = b.toNat := by omega
    have h3 : Char.ofNat a.toNat = Char.ofNat b.toNat := by rw [this]
    simpa using h3

theorem stringLess_strictTotal : SpecModel.StrictTotal SpecModel.stringLess := by
  have h := lexLess_strictTotal SpecModel.charLess charLess_strictTotal
  refine ⟨fun a b => h.asymm _ _, fun a b c => h.trans _ _ _, fun a b h₁ h₂ => ?_⟩
  exact String.ext (h.total _ _ h₁ h₂)

theorem strictTotal_neg_trans {α : Type} {lt : α → α → Bool} (h : SpecModel.StrictTotal lt)
    (a b c : α) (h₁ : lt b a = false) (h₂ : lt c b = false) : lt c a = false := by
  by_contra hca
  have hca : lt c a = true := by simpa using hca
  by_cases hab : lt a b = true
  · rw [h.trans c a b hca hab] at h₂
    exact absurd h₂ (by simp)
  · have hx : a = b := h.total a b (by simpa using hab) h₁
    subst hx
    rw [hca] at h₂
    exact absurd h₂ (by simp)

/-- The order of the specification never puts two rules both ways round. -/
theorem Less_asymm (a b : PolicyRule) (h : SpecModel.Less a b = true) :
    SpecModel.Less b a = false :=
  (lexLess_strictTotal _ stringLess_strictTotal).asymm _ _ h

/-- The order of the specification: "not after" is transitive. -/
theorem Less_neg_trans (a b c : PolicyRule) (h₁ : SpecModel.Less b a = false)
    (h₂ : SpecModel.Less c b = false) : SpecModel.Less c a = false :=
  strictTotal_neg_trans (lexLess_strictTotal _ stringLess_strictTotal) _ _ _ h₁ h₂

/-! ## The paths of `Create` -/

/-- The `switch` without filtering: `rules` and `err` are unchanged and no call is made. -/
theorem scopeSwitch_unfiltered {G : Type} (p : Packages G) (r : REST G)
    (rulesReview : SelfSubjectRulesReview) (user : UserInfo) (ns : String)
    (rules : List PolicyRule) (err : Option GoError)
    (calls : List Call)
    (h : (rulesReview.Spec.Scopes = none ∧ user.GetExtra p.ScopesKey = []) ∨
      rulesReview.Spec.Scopes = some []) :
    scopeSwitch p r rulesReview user ns rules err calls = ⟨.ok (rules, err), calls⟩ := by
  rcases h with ⟨h₁, h₂⟩ | h
  · simp [scopeSwitch, h₁, h₂]
  · simp [scopeSwitch, h]

/-- The scope list that the `switch` filters by, when it filters: the identity's claims when
`Spec.Scopes` is nil and there are claims, `Spec.Scopes` when it is not empty. -/
theorem scopeSwitch_filtered {G : Type} (p : Packages G) (r : REST G)
    (rulesReview : SelfSubjectRulesReview) (user : UserInfo) (ns : String)
    (rules : List PolicyRule) (err : Option GoError)
    (calls : List Call) (scopes : List String)
    (h : (rulesReview.Spec.Scopes = none ∧ user.GetExtra p.ScopesKey = scopes) ∨
      rulesReview.Spec.Scopes = some scopes)
    (hne : scopes ≠ []) :
    scopeSwitch p r rulesReview user ns rules err calls =
      match filterRulesByScopes p r rules scopes ns with
      | ⟨.error err, filterCalls⟩ => ⟨.error err, calls ++ filterCalls⟩
      | ⟨.ok rules, filterCalls⟩ => ⟨.ok (rules, none), calls ++ filterCalls⟩ := by
  have hlen : scopes.length > 0 := List.length_pos.2 hne
  rcases h with ⟨h₁, h₂⟩ | h
  · simp only [scopeSwitch, h₁, h₂, hlen, if_true]
  · simp only [scopeSwitch, h, hlen, if_true]

/-- The `switch` reads the storage through its cluster policy getter only. -/
theorem scopeSwitch_getter {G : Type} (p : Packages G) (r r₂ : REST G)
    (rulesReview : SelfSubjectRulesReview) (user : UserInfo) (ns : String)
    (rules : List PolicyRule) (err : Option GoError)
    (calls : List Call) (hg : r₂.clusterPolicyGetter = r.clusterPolicyGetter) :
    scopeSwitch p r₂ rulesReview user ns rules err calls =
      scopeSwitch p r rulesReview user ns rules err calls := by
  simp only [scopeSwitch, filterRulesByScopes, hg]

/-- A request that passes the three checks of `Create` reaches the resolver, the breakdown
loop and the `switch`. -/
theorem Create_valid {G : Type} (p : Packages G) (r : REST G) (ctx : Context)
    (rulesReview : SelfSubjectRulesReview) (user : UserInfo)
    (hne : NamespaceValue ctx ≠ "") (hu : UserFrom ctx = some user) :
    Create p r ctx (.selfSubjectRulesReview rulesReview) =
      match scopeSwitch p r rulesReview user (NamespaceValue ctx)
          ((r.ruleResolver ctx).1.flatMap p.BreakdownRule) (r.ruleResolver ctx).2
          [.GetEffectivePolicyRules ctx] with
      | ⟨.error err, calls⟩ => ⟨.error err, calls⟩
      | ⟨.ok (rules, err), calls⟩ => ⟨.ok (reviewOf p rules err), calls⟩ := by
  have hlen : ¬ (NamespaceValue ctx).length = 0 := by
    intro h
    exact hne (String.ext (List.length_eq_zero.1 h))
  simp only [Create, hu, hlen, if_false, breakdownRules_eq, reviewOf]

/-- A valid request that is not filtered: the review is built from all the broken-down rules
and the resolver's error, and only the resolver is called. -/
theorem Create_unfiltered {G : Type} (p : Packages G) (r : REST G) (ctx : Context)
    (rulesReview : SelfSubjectRulesReview) (user : UserInfo)
    (hne : NamespaceValue ctx ≠ "") (hu : UserFrom ctx = some user)
    (h : (rulesReview.Spec.Scopes = none ∧ user.GetExtra p.ScopesKey = []) ∨
      rulesReview.Spec.Scopes = some []) :
    Create p r ctx (.selfSubjectRulesReview rulesReview) =
      ⟨.ok (reviewOf p ((r.ruleResolver ctx).1.flatMap p.BreakdownRule) (r.ruleResolver ctx).2),
        [.GetEffectivePolicyRules ctx]⟩ := by
  rw [Create_valid p r ctx rulesReview user hne hu, scopeSwitch_unfiltered p r _ _ _ _ _ _ h]

/-- A valid request that is filtered by `scopes`: the outcome of `filterRulesByScopes` decides,
and the resolver's error is not read. -/
theorem Create_filtered {G : Type} (p : Packages G) (r : REST G) (ctx : Context)
    (rulesReview : SelfSubjectRulesReview) (user : UserInfo) (scopes : List String)
    (hne : NamespaceValue ctx ≠ "") (hu : UserFrom ctx = some user)
    (h : (rulesReview.Spec.Scopes = none ∧ user.GetExtra p.ScopesKey = scopes) ∨
      rulesReview.Spec.Scopes = some scopes)
    (hscopes : scopes ≠ []) :
    Create p r ctx (.selfSubjectRulesReview rulesReview) =
      ⟨reviewFilteredBy p r (r.ruleResolver ctx).1 scopes (NamespaceValue ctx),
        [.GetEffectivePolicyRules ctx, .ScopesToRules scopes (NamespaceValue ctx)]⟩ := by
  rw [Create_valid p r ctx rulesReview user hne hu,
    scopeSwitch_filtered p r _ _ _ _ _ _ scopes h hscopes]
  cases htr : p.ScopesToRules scopes (NamespaceValue ctx) r.clusterPolicyGetter with
  | ok scopeRules =>
    simp [reviewFilteredBy, filterRulesByScopes_ok p r _ scopes _ scopeRules htr]
  | error e =>
    simp [reviewFilteredBy, filterRulesByScopes_error p r _ scopes _ e htr]

/-! ## The claims -/

/-- C1 (the code departs from the claim). When the request is valid, the resolver returns
an error `e` with its partial rules, and the rules are filtered by a scope list that
translates (the identity's claims, or a non-empty `Spec.Scopes`), `Create` returns a review
and a nil error, but the evaluation error of the review is empty: the assignment
`rules, err = r.filterRulesByScopes(...)` has replaced the resolver's error by nil. The
review therefore does not carry the message of `e` unless that message is empty. -/
theorem C1_resolver_error_lost_after_filtering {G : Type} (p : Packages G) (r : REST G)
    (ctx : Context) (rulesReview : SelfSubjectRulesReview) (user : UserInfo)
    (scopes : List String)
    (scopeRules : List PolicyRule) (e : GoError)
    (hne : NamespaceValue ctx ≠ "") (hu : UserFrom ctx = some user)
    (_he : (r.ruleResolver ctx).2 = some e)
    (h : (rulesReview.Spec.Scopes = none ∧ user.GetExtra p.ScopesKey = scopes) ∨
      rulesReview.Spec.Scopes = some scopes)
    (hscopes : scopes ≠ [])
    (htr : p.ScopesToRules scopes (NamespaceValue ctx) r.clusterPolicyGetter = .ok scopeRules) :
    ∃ ret, (Create p r ctx (.selfSubjectRulesReview rulesReview)).result = .ok ret ∧
      ret.Status.EvaluationError = "" ∧
      (e.Error ≠ "" → ret.Status.EvaluationError ≠ e.Error) := by
  rw [Create_filtered p r ctx rulesReview user scopes hne hu h hscopes]
  refine ⟨reviewOf p (((r.ruleResolver ctx).1.flatMap p.BreakdownRule).filter
    fun rule => (p.Covers scopeRules [rule]).1) none, ?_, rfl, ?_⟩
  · simp [reviewFilteredBy, filterRulesByScopes_ok p r _ scopes _ scopeRules htr]
  · intro hmsg heq
    exact hmsg heq.symm

/-- C1 at a concrete request: the resolver fails with "policy binding not found", the request
asks for the scope `secret-reader`, and the review has no evaluation error. -/
theorem C1_resolver_error_lost_after_filtering_witness :
    ∃ ret, (Create Example.packages (Example.rest [Example.getDeleteSecrets]
        (some Example.resolverError)) (Example.ctx [])
        (.selfSubjectRulesReview (Example.review (some ["secret-reader"])))).result = .ok ret ∧
      ret.Status.EvaluationError = "" ∧
      (Example.resolverError.Error ≠ "" →
        ret.Status.EvaluationError ≠ Example.resolverError.Error) :=
  C1_resolver_error_lost_after_filtering Example.packages
    (Example.rest [Example.getDeleteSecrets] (some Example.resolverError)) (Example.ctx [])
    (Example.review (some ["secret-reader"])) (Example.alice []) ["secret-reader"]
    [Example.getSecrets] Example.resolverError (by decide) rfl rfl (Or.inr rfl) (by decide) rfl

/-- The part of C1 that the code does: without filtering, the review carries the message of
the resolver's error together with the rules computed from the partial rule list. -/
theorem Create_reports_resolver_error_unfiltered {G : Type} (p : Packages G) (r : REST G)
    (ctx : Context) (rulesReview : SelfSubjectRulesReview) (user : UserInfo) (e : GoError)
    (hne : NamespaceValue ctx ≠ "") (hu : UserFrom ctx = some user)
    (he : (r.ruleResolver ctx).2 = some e)
    (h : (rulesReview.Spec.Scopes = none ∧ user.GetExtra p.ScopesKey = []) ∨
      rulesReview.Spec.Scopes = some []) :
    ∃ ret, (Create p r ctx (.selfSubjectRulesReview rulesReview)).result = .ok ret ∧
      ret.Status.EvaluationError = e.Error := by
  rw [Create_unfiltered p r ctx rulesReview user hne hu h]
  exact ⟨_, rfl, by simp [reviewOf, he, evaluationError]⟩

/-- C2. For a valid request: when `Spec.Scopes` is nil and the user has scope claims, the
result is the one of filtering the broken-down rules by the claims; when `Spec.Scopes` is not
empty, the result is the one of filtering by `Spec.Scopes`, and a request by any other user
in the same namespace for whom the resolver answers the same has the same result. -/
theorem C2_scope_list_choice {G : Type} (p : Packages G) (r : REST G) (ctx : Context)
    (rulesReview : SelfSubjectRulesReview) (user : UserInfo)
    (hne : NamespaceValue ctx ≠ "") (hu : UserFrom ctx = some user) :
    (rulesReview.Spec.Scopes = none → user.GetExtra p.ScopesKey ≠ [] →
      (Create p r ctx (.selfSubjectRulesReview rulesReview)).result =
        reviewFilteredBy p r (r.ruleResolver ctx).1 (user.GetExtra p.ScopesKey)
          (NamespaceValue ctx)) ∧
    (∀ specScopes, rulesReview.Spec.Scopes = some specScopes → specScopes ≠ [] →
      (Create p r ctx (.selfSubjectRulesReview rulesReview)).result =
        reviewFilteredBy p r (r.ruleResolver ctx).1 specScopes (NamespaceValue ctx) ∧
      ∀ (ctx₂ : Context) (user₂ : UserInfo), NamespaceValue ctx₂ = NamespaceValue ctx →
        UserFrom ctx₂ = some user₂ → r.ruleResolver ctx₂ = r.ruleResolver ctx →
        (Create p r ctx₂ (.selfSubjectRulesReview rulesReview)).result =
          (Create p r ctx (.selfSubjectRulesReview rulesReview)).result) := by
  refine ⟨?_, ?_⟩
  · intro hnil hclaims
    rw [Create_filtered p r ctx rulesReview user _ hne hu (Or.inl ⟨hnil, rfl⟩) hclaims]
  · intro specScopes hspec hscopes
    refine ⟨?_, ?_⟩
    · rw [Create_filtered p r ctx rulesReview user _ hne hu (Or.inr hspec) hscopes]
    · intro ctx₂ user₂ hns₂ hu₂ hres
      rw [Create_filtered p r ctx rulesReview user _ hne hu (Or.inr hspec) hscopes,
        Create_filtered p r ctx₂ rulesReview user₂ _ (hns₂ ▸ hne) hu₂ (Or.inr hspec) hscopes,
        hres, hns₂]

/-- C2 at a concrete request: a user whose claims do not translate asks for the scope
`secret-reader` and gets the result of a user without claims. -/
theorem C2_scope_list_choice_witness :
    (Create Example.packages (Example.rest [Example.getDeleteSecrets] none) (Example.ctx [])
        (.selfSubjectRulesReview (Example.review (some ["secret-reader"])))).result =
      (Create Example.packages (Example.rest [Example.getDeleteSecrets] none)
        (Example.ctx ["unknown"])
        (.selfSubjectRulesReview (Example.review (some ["secret-reader"])))).result :=
  ((C2_scope_list_choice Example.packages (Example.rest [Example.getDeleteSecrets] none)
    (Example.ctx ["unknown"]) (Example.review (some ["secret-reader"]))
    (Example.alice ["unknown"]) (by decide) rfl).2 ["secret-reader"] rfl (by decide)).2
    (Example.ctx []) (Example.alice []) rfl rfl rfl

/-- C3. For a valid request whose `Spec.Scopes` is an empty list that is not nil, `Create`
filters nothing: only the resolver is called (the scope translator is not), the rules handed
to compaction are all the broken-down rules of the resolver, the returned rules are these
rules compacted and sorted (sorted only, should compaction fail), and the result is the same
for any other user for whom the resolver answers the same, whatever the scope claims. -/
theorem C3_explicit_empty_scopes {G : Type} (p : Packages G) (r : REST G) (ctx : Context)
    (rulesReview : SelfSubjectRulesReview) (user : UserInfo)
    (hne : NamespaceValue ctx ≠ "") (hu : UserFrom ctx = some user)
    (hs : rulesReview.Spec.Scopes = some []) :
    (∃ ret, Create p r ctx (.selfSubjectRulesReview rulesReview) =
        ⟨.ok ret, [.GetEffectivePolicyRules ctx]⟩ ∧
      ret.Status.Rules =
        sortRules p.Less (compactedOrSame p ((r.ruleResolver ctx).1.flatMap p.BreakdownRule)) ∧
      (∀ compacted, p.CompactRules ((r.ruleResolver ctx).1.flatMap p.BreakdownRule) =
          .ok compacted → ret.Status.Rules = sortRules p.Less compacted) ∧
      ret.Status.Rules.Perm
        (compactedOrSame p ((r.ruleResolver ctx).1.flatMap p.BreakdownRule))) ∧
    (∀ scopes ns,
      Call.ScopesToRules scopes ns ∉ (Create p r ctx (.selfSubjectRulesReview rulesReview)).calls) ∧
    (∀ (ctx₂ : Context) (user₂ : UserInfo), NamespaceValue ctx₂ ≠ "" →
      UserFrom ctx₂ = some user₂ → r.ruleResolver ctx₂ = r.ruleResolver ctx →
      (Create p r ctx₂ (.selfSubjectRulesReview rulesReview)).result =
        (Create p r ctx (.selfSubjectRulesReview rulesReview)).result) := by
  have hc := Create_unfiltered p r ctx rulesReview user hne hu (Or.inr hs)
  refine ⟨⟨_, hc, rfl, ?_, perm_sortRules _ _⟩, ?_, ?_⟩
  · intro compacted hcompacted
    simp [reviewOf, compactedOrSame, hcompacted]
  · intro scopes ns
    simp [hc]
  · intro ctx₂ user₂ hne₂ hu₂ hres
    rw [hc, Create_unfiltered p r ctx₂ rulesReview user₂ hne₂ hu₂ (Or.inr hs), hres]

/-- C3 at a concrete request: the user's claims would not translate, the request has an empty
scope list, and the translator is not called. -/
theorem C3_explicit_empty_scopes_witness :
    Call.ScopesToRules ["unknown"] "ns" ∉
      (Create Example.packages (Example.rest [Example.getDeleteSecrets] none)
        (Example.ctx ["unknown"]) (.selfSubjectRulesReview (Example.review (some [])))).calls :=
  (C3_explicit_empty_scopes Example.packages (Example.rest [Example.getDeleteSecrets] none)
    (Example.ctx ["unknown"]) (Example.review (some [])) (Example.alice ["unknown"])
    (by decide) rfl rfl).2.1 ["unknown"] "ns"

/-- C4. For a valid request with a nil `Spec.Scopes` by a user without scope claims (no claims
or an empty list of claims), `Create` filters nothing: only the resolver is called, and the
returned rules are the broken-down rules of the resolver, compacted and sorted, or sorted
only when compaction fails. -/
theorem C4_no_scopes_no_claims {G : Type} (p : Packages G) (r : REST G) (ctx : Context)
    (rulesReview : SelfSubjectRulesReview) (user : UserInfo)
    (hne : NamespaceValue ctx ≠ "") (hu : UserFrom ctx = some user)
    (hs : rulesReview.Spec.Scopes = none) (hclaims : user.GetExtra p.ScopesKey = []) :
    (∃ ret, Create p r ctx (.selfSubjectRulesReview rulesReview) =
        ⟨.ok ret, [.GetEffectivePolicyRules ctx]⟩ ∧
      (∀ compacted, p.CompactRules ((r.ruleResolver ctx).1.flatMap p.BreakdownRule) =
          .ok compacted → ret.Status.Rules = sortRules p.Less compacted) ∧
      (∀ e, p.CompactRules ((r.ruleResolver ctx).1.flatMap p.BreakdownRule) = .error e →
        ret.Status.Rules =
          sortRules p.Less ((r.ruleResolver ctx).1.flatMap p.BreakdownRule))) ∧
    (∀ scopes ns,
      Call.ScopesToRules scopes ns ∉
        (Create p r ctx (.selfSubjectRulesReview rulesReview)).calls) := by
  have hc := Create_unfiltered p r ctx rulesReview user hne hu (Or.inl ⟨hs, hclaims⟩)
  refine ⟨⟨_, hc, ?_, ?_⟩, ?_⟩
  · intro compacted hcompacted
    simp [reviewOf, compactedOrSame, hcompacted]
  · intro e hcompacted
    simp [reviewOf, compactedOrSame, hcompacted]
  · intro scopes ns
    simp [hc]

/-- C4 at a concrete request: no scopes, no claims, and the compound rule comes back whole
after breakdown and compaction. -/
theorem C4_no_scopes_no_claims_witness :
    ∃ ret, Create Example.packages (Example.rest [Example.getDeleteSecrets] none)
        (Example.ctx []) (.selfSubjectRulesReview (Example.review none)) =
        ⟨.ok ret, [.GetEffectivePolicyRules (Example.ctx [])]⟩ ∧
      ret.Status.Rules = [Example.getDeleteSecrets] := by
  obtain ⟨ret, hret, hok, _⟩ :=
    (C4_no_scopes_no_claims Example.packages (Example.rest [Example.getDeleteSecrets] none)
      (Example.ctx []) (Example.review none) (Example.alice []) (by decide) rfl rfl rfl).1
  exact ⟨ret, hret, (hok [Example.getDeleteSecrets] (by decide)).trans (by decide)⟩

/-- C5. When the scopes translate to `scopeRules`, `filterRulesByScopes` returns, with a nil
error, the list filter of its input by the test `Covers(scopeRules, [rule])`: every rule is
kept unchanged or dropped, in the original order. The output is a sublist of the input, and
filtering the output again returns it unchanged. -/
theorem C5_filter_is_list_filter {G : Type} (p : Packages G) (r : REST G)
    (rules : List PolicyRule) (scopes : List String) (ns : String)
    (scopeRules : List PolicyRule)
    (h : p.ScopesToRules scopes ns r.clusterPolicyGetter = .ok scopeRules) :
    (filterRulesByScopes p r rules scopes ns).result =
        .ok (rules.filter fun rule => (p.Covers scopeRules [rule]).1) ∧
      (rules.filter fun rule => (p.Covers scopeRules [rule]).1).Sublist rules ∧
      (filterRulesByScopes p r (rules.filter fun rule => (p.Covers scopeRules [rule]).1)
          scopes ns).result =
        (filterRulesByScopes p r rules scopes ns).result := by
  refine ⟨?_, List.filter_sublist _, ?_⟩
  · rw [filterRulesByScopes_ok p r rules scopes ns scopeRules h]
  · rw [filterRulesByScopes_ok p r rules scopes ns scopeRules h,
      filterRulesByScopes_ok p r _ scopes ns scopeRules h, List.filter_filter]
    simp

/-- C5 at concrete rules: of the two atomic secrets rules, the scope `secret-reader` keeps the
`get` rule. -/
theorem C5_filter_is_list_filter_witness :
    (filterRulesByScopes Example.packages (Example.rest [] none)
        [Example.getSecrets, Example.deleteSecrets] ["secret-reader"] "ns").result =
      .ok [Example.getSecrets] :=
  (C5_filter_is_list_filter Example.packages (Example.rest [] none)
    [Example.getSecrets, Example.deleteSecrets] ["secret-reader"] "ns" [Example.getSecrets]
    rfl).1.trans (by decide)

/-- C7. For a valid request with a non-empty `Spec.Scopes` that does not translate,
whatever the resolver returned, `Create` returns the translator's error and no review, after
calling the resolver and the translator; and `filterRulesByScopes` returns that error for
every rule list. -/
theorem C7_explicit_scopes_error_is_fatal {G : Type} (p : Packages G) (r : REST G)
    (ctx : Context) (rulesReview : SelfSubjectRulesReview) (user : UserInfo)
    (specScopes : List String)
    (e : GoError)
    (hne : NamespaceValue ctx ≠ "") (hu : UserFrom ctx = some user)
    (hs : rulesReview.Spec.Scopes = some specScopes) (hscopes : specScopes ≠ [])
    (htr : p.ScopesToRules specScopes (NamespaceValue ctx) r.clusterPolicyGetter = .error e) :
    Create p r ctx (.selfSubjectRulesReview rulesReview) =
        ⟨.error e, [.GetEffectivePolicyRules ctx,
          .ScopesToRules specScopes (NamespaceValue ctx)]⟩ ∧
      ∀ rules, (filterRulesByScopes p r rules specScopes (NamespaceValue ctx)).result =
        .error e := by
  refine ⟨?_, ?_⟩
  · rw [Create_filtered p r ctx rulesReview user specScopes hne hu (Or.inr hs) hscopes]
    simp [reviewFilteredBy, filterRulesByScopes_error p r _ specScopes _ e htr]
  · intro rules
    rw [filterRulesByScopes_error p r rules specScopes _ e htr]

/-- C7 at a concrete request: the scope `unknown` does not translate, and the request fails
although the resolver returned rules without an error. -/
theorem C7_explicit_scopes_error_is_fatal_witness :
    (Create Example.packages (Example.rest [Example.getDeleteSecrets] none) (Example.ctx [])
        (.selfSubjectRulesReview (Example.review (some ["unknown"])))).result =
      .error (.plain "unknown scope") :=
  congrArg Outcome.result
    (C7_explicit_scopes_error_is_fatal Example.packages
      (Example.rest [Example.getDeleteSecrets] none) (Example.ctx [])
      (Example.review (some ["unknown"])) (Example.alice []) ["unknown"]
      (.plain "unknown scope") (by decide) rfl rfl (by decide) (by decide)).1

/-- C9. When the object is not a SelfSubjectRulesReview, or the namespace of the context is
empty, or the context has no user, `Create` returns an error and no review, without calling
the resolver or the scope translator; the error is the same whatever the collaborators are. -/
theorem C9_validation_errors_abort {G : Type} (p : Packages G) (r : REST G) (ctx : Context)
    (obj : RuntimeObject)
    (h : (∀ rulesReview, obj ≠ .selfSubjectRulesReview rulesReview) ∨
      NamespaceValue ctx = "" ∨ UserFrom ctx = none) :
    ∃ e, Create p r ctx obj = ⟨.error e, []⟩ ∧
      ∀ (G₂ : Type) (p₂ : Packages G₂) (r₂ : REST G₂), Create p₂ r₂ ctx obj = ⟨.error e, []⟩ := by
  cases obj with
  | other goSyntax => exact ⟨_, rfl, fun _ _ _ => rfl⟩
  | selfSubjectRulesReview rulesReview =>
    by_cases hns : NamespaceValue ctx = ""
    · exact ⟨.badRequest ("namespace is required on this type: " ++ NamespaceValue ctx),
        by simp [Create, hns], fun _ _ _ => by simp [Create, hns]⟩
    · have hlen : ¬ (NamespaceValue ctx).length = 0 := fun h0 =>
        hns (String.ext (List.length_eq_zero.1 h0))
      rcases h with h | h | h
      · exact absurd rfl (h rulesReview)
      · exact absurd h hns
      · exact ⟨.plain "user missing from context", by simp [Create, hlen, h],
          fun _ _ _ => by simp [Create, hlen, h]⟩

/-- C9 at a concrete request: a review sent without a namespace. -/
theorem C9_validation_errors_abort_witness :
    ∃ e, Create Example.packages (Example.rest [Example.getDeleteSecrets] none)
        { ns := none, user := some (Example.alice []) }
        (.selfSubjectRulesReview (Example.review none)) = ⟨.error e, []⟩ ∧
      ∀ (G₂ : Type) (p₂ : Packages G₂) (r₂ : REST G₂),
        Create p₂ r₂ { ns := none, user := some (Example.alice []) }
          (.selfSubjectRulesReview (Example.review none)) = ⟨.error e, []⟩ :=
  C9_validation_errors_abort Example.packages (Example.rest [Example.getDeleteSecrets] none)
    { ns := none, user := some (Example.alice []) }
    (.selfSubjectRulesReview (Example.review none)) (Or.inr (Or.inl rfl))

/-! ### The scope-filter example -/

theorem example_breakdown (apiGroup : String) :
    [Example.getDeleteSecretsIn apiGroup].flatMap SpecModel.BreakdownRule =
      [Example.getSecretsIn apiGroup, Example.deleteSecretsIn apiGroup] := by
  simp [Example.getDeleteSecretsIn, Example.getSecretsIn, Example.deleteSecretsIn,
    SpecModel.BreakdownRule, SpecModel.isURLShaped]

theorem example_filter (apiGroup : String) :
    ([Example.getSecretsIn apiGroup, Example.deleteSecretsIn apiGroup].filter fun rule =>
      (SpecModel.Covers [Example.getSecretsIn apiGroup] [rule]).1) =
      [Example.getSecretsIn apiGroup] := by
  simp [Example.getSecretsIn, Example.deleteSecretsIn, SpecModel.Covers,
    SpecModel.BreakdownRule, SpecModel.isURLShaped, SpecModel.atomCovers,
    SpecModel.dimensionCovers, SpecModel.resourceNamesCover, SpecModel.urlsCover, List.filter]

theorem example_compact (apiGroup : String) :
    SpecModel.CompactRules [Example.getSecretsIn apiGroup] =
      .ok [Example.getSecretsIn apiGroup] := by
  simp [Example.getSecretsIn, SpecModel.CompactRules, SpecModel.isMalformed,
    SpecModel.compactLoop, SpecModel.compactPass, SpecModel.Dimension.all, SpecModel.mergeInto]

/-- The compound rule of the example, taken whole, is not covered by the scope rule. -/
theorem example_compound_not_covered :
    (SpecModel.Covers [Example.getSecrets] [Example.getDeleteSecrets]).1 = false := by
  decide

/-- The rules of the example as they are written, without apiGroups: the cross product of
the breakdown is empty, so the compound rule has no atomic rule and is covered vacuously, and
no rule reaches the filter of `Create`. -/
theorem example_without_apiGroups :
    SpecModel.BreakdownRule Example.getDeleteSecretsNoGroup = [] ∧
      (SpecModel.Covers [Example.getSecretsNoGroup] [Example.getDeleteSecretsNoGroup]).1 =
        true := by
  decide

/-- C6, counterexample. The resolver returns the single rule
`{verbs: [get, delete], apiGroups: [""], resources: [secrets]}` and the requested scope
translates to `[{verbs: [get], apiGroups: [""], resources: [secrets]}]`, with the breakdown
and coverage of the specification: the rules of the review are not empty, the `get` rule is
returned. -/
theorem C6_counterexample :
    ∃ ret, (Create Example.packages (Example.rest [Example.getDeleteSecrets] none)
        (Example.ctx [])
        (.selfSubjectRulesReview (Example.review (some ["secret-reader"])))).result = .ok ret ∧
      ret.Status.Rules = [Example.getSecrets] ∧ ret.Status.Rules ≠ [] :=
  ⟨{ Spec := { Scopes := none },
     Status := { Rules := [Example.getSecrets], EvaluationError := "" } },
    by decide, rfl, by decide⟩

/-- C6, amended. With the breakdown, coverage, compaction and order of the specification,
for every apiGroup `g`: when the resolver returns the single rule
`{verbs: [get, delete], apiGroups: [g], resources: [secrets]}` and the scopes in use (the
identity's claims, or a non-empty `Spec.Scopes`) translate to
`[{verbs: [get], apiGroups: [g], resources: [secrets]}]`, the rules of the review are
`[{verbs: [get], apiGroups: [g], resources: [secrets]}]`: `Create` breaks the rule down
before it filters, each atomic rule is kept or dropped whole, the covered `get` rule is
kept and the `delete` rule is dropped. -/
theorem C6_covered_atomic_rule_is_kept {G : Type} (scopesKey : String)
    (scopesToRules : List String → String → G → Result (List PolicyRule)) (r : REST G)
    (ctx : Context) (rulesReview : SelfSubjectRulesReview) (user : UserInfo)
    (scopes : List String) (apiGroup : String)
    (hne : NamespaceValue ctx ≠ "") (hu : UserFrom ctx = some user)
    (hres : (r.ruleResolver ctx).1 = [Example.getDeleteSecretsIn apiGroup])
    (h : (rulesReview.Spec.Scopes = none ∧ user.GetExtra scopesKey = scopes) ∨
      rulesReview.Spec.Scopes = some scopes)
    (hscopes : scopes ≠ [])
    (htr : scopesToRules scopes (NamespaceValue ctx) r.clusterPolicyGetter =
      .ok [Example.getSecretsIn apiGroup]) :
    (Create (SpecModel.packages scopesKey scopesToRules) r ctx
        (.selfSubjectRulesReview rulesReview)).result =
      .ok { Spec := { Scopes := none },
            Status := { Rules := [Example.getSecretsIn apiGroup], EvaluationError := "" } } := by
  rw [Create_filtered (SpecModel.packages scopesKey scopesToRules) r ctx rulesReview user scopes
    hne hu h hscopes]
  have hf := filterRulesByScopes_ok (SpecModel.packages scopesKey scopesToRules) r
    ([Example.getDeleteSecretsIn apiGroup].flatMap SpecModel.BreakdownRule) scopes
    (NamespaceValue ctx) [Example.getSecretsIn apiGroup] htr
  simp only [reviewFilteredBy, hres]
  have hb : (SpecModel.packages scopesKey scopesToRules).BreakdownRule =
    SpecModel.BreakdownRule := rfl
  rw [hb, hf]
  have hc : (SpecModel.packages scopesKey scopesToRules).Covers = SpecModel.Covers := rfl
  simp only [hc, example_breakdown, example_filter]
  simp [reviewOf, compactedOrSame, SpecModel.packages, example_compact, sortRules, insertRule,
    evaluationError]

/-- C6 amended, at a concrete request: the core group, a user with the claim `secret-reader`
and a nil `Spec.Scopes`. -/
theorem C6_covered_atomic_rule_is_kept_witness :
    (Create Example.packages (Example.rest [Example.getDeleteSecrets] none)
        (Example.ctx ["secret-reader"]) (.selfSubjectRulesReview (Example.review none))).result =
      .ok { Spec := { Scopes := none },
            Status := { Rules := [Example.getSecrets], EvaluationError := "" } } :=
  C6_covered_atomic_rule_is_kept "scopes" Example.scopesToRules
    (Example.rest [Example.getDeleteSecrets] none) (Example.ctx ["secret-reader"])
    (Example.review none) (Example.alice ["secret-reader"]) ["secret-reader"] ""
    (by decide) rfl rfl (Or.inl ⟨rfl, by decide⟩) (by decide) (by decide)

/-- C8, counterexample. Compaction fails on the rules of the request, and `Create` returns a
review with the uncompacted rules, sorted, and no error. -/
theorem C8_counterexample :
    Example.packagesWithoutCompaction.CompactRules
        [Example.getSecrets, Example.deleteSecrets] = .error (.plain "compaction failed") ∧
      (Create Example.packagesWithoutCompaction (Example.rest [Example.getDeleteSecrets] none)
        (Example.ctx []) (.selfSubjectRulesReview (Example.review none))).result =
      .ok { Spec := { Scopes := none },
            Status := { Rules := [Example.deleteSecrets, Example.getSecrets],
                        EvaluationError := "" } } := by
  decide

/-- C8, amended. For a valid request that reaches compaction with the (filtered) rules
`filtered` and the error value `err`, when `CompactRules` fails on `filtered`, `Create` does
not fail: it returns a review whose rules are `filtered`, uncompacted and sorted, and whose
evaluation error is the message of `err`; the error of `CompactRules` is dropped. -/
theorem C8_compaction_error_is_ignored {G : Type} (p : Packages G) (r : REST G)
    (ctx : Context) (rulesReview : SelfSubjectRulesReview) (user : UserInfo)
    (filtered : List PolicyRule)
    (err : Option GoError) (calls : List Call) (e : GoError)
    (hne : NamespaceValue ctx ≠ "") (hu : UserFrom ctx = some user)
    (hswitch : scopeSwitch p r rulesReview user (NamespaceValue ctx)
      ((r.ruleResolver ctx).1.flatMap p.BreakdownRule) (r.ruleResolver ctx).2
      [.GetEffectivePolicyRules ctx] = ⟨.ok (filtered, err), calls⟩)
    (hcompact : p.CompactRules filtered = .error e) :
    Create p r ctx (.selfSubjectRulesReview rulesReview) =
      ⟨.ok { Spec := { Scopes := none },
             Status := { Rules := sortRules p.Less filtered,
                         EvaluationError := evaluationError err } }, calls⟩ := by
  rw [Create_valid p r ctx rulesReview user hne hu, hswitch]
  simp [reviewOf, compactedOrSame, hcompact]

/-- C8 amended, at a concrete request: the scope `secret-reader` keeps the `get` rule,
compaction fails, and the review holds the `get` rule. -/
theorem C8_compaction_error_is_ignored_witness :
    Create Example.packagesWithoutCompaction (Example.rest [Example.getDeleteSecrets] none)
        (Example.ctx []) (.selfSubjectRulesReview (Example.review (some ["secret-reader"]))) =
      ⟨.ok { Spec := { Scopes := none },
             Status := { Rules := sortRules SpecModel.Less [Example.getSecrets],
                         EvaluationError := evaluationError none } },
        [.GetEffectivePolicyRules (Example.ctx []), .ScopesToRules ["secret-reader"] "ns"]⟩ :=
  C8_compaction_error_is_ignored Example.packagesWithoutCompaction
    (Example.rest [Example.getDeleteSecrets] none) (Example.ctx [])
    (Example.review (some ["secret-reader"])) (Example.alice []) [Example.getSecrets] none
    [.GetEffectivePolicyRules (Example.ctx []), .ScopesToRules ["secret-reader"] "ns"]
    (.plain "compaction failed") (by decide) rfl (by decide) rfl

/-- C10. For a valid request on which `Create` succeeds, with `Less` a strict weak order
(never both ways round, and "not after" transitive): the rules of the review are a
permutation of the compacted filtered rules (the filtered rules themselves when compaction
fails) and are in non-decreasing order. When `Less` also leaves no two different rules
unordered, they are the only such arrangement. A second call with the same request and
identity, on a storage whose resolver gives the same answer and whose cluster policy getter
is the same, returns the same review. -/
theorem C10_rules_sorted_permutation {G : Type} (p : Packages G) (r : REST G)
    (ctx : Context) (rulesReview : SelfSubjectRulesReview) (user : UserInfo)
    (ret : SelfSubjectRulesReview)
    (hne : NamespaceValue ctx ≠ "") (hu : UserFrom ctx = some user)
    (hasymm : ∀ a b, p.Less a b = true → p.Less b a = false)
    (htrans : ∀ a b c, p.Less b a = false → p.Less c b = false → p.Less c a = false)
    (hok : (Create p r ctx (.selfSubjectRulesReview rulesReview)).result = .ok ret) :
    ∃ filtered err calls,
      scopeSwitch p r rulesReview user (NamespaceValue ctx)
        ((r.ruleResolver ctx).1.flatMap p.BreakdownRule) (r.ruleResolver ctx).2
        [.GetEffectivePolicyRules ctx] = ⟨.ok (filtered, err), calls⟩ ∧
      ret.Status.Rules.Perm (compactedOrSame p filtered) ∧
      ret.Status.Rules.Pairwise (fun a b => p.Less b a = false) ∧
      ((∀ a b, p.Less a b = false → p.Less b a = false → a = b) →
        ∀ l : List PolicyRule, l.Perm (compactedOrSame p filtered) →
          l.Pairwise (fun a b => p.Less b a = false) → l = ret.Status.Rules) ∧
      (∀ r₂ : REST G, r₂.ruleResolver ctx = r.ruleResolver ctx →
        r₂.clusterPolicyGetter = r.clusterPolicyGetter →
        (Create p r₂ ctx (.selfSubjectRulesReview rulesReview)).result = .ok ret) := by
  have hsame : ∀ r₂ : REST G, r₂.ruleResolver ctx = r.ruleResolver ctx →
      r₂.clusterPolicyGetter = r.clusterPolicyGetter →
      (Create p r₂ ctx (.selfSubjectRulesReview rulesReview)).result = .ok ret := by
    intro r₂ hres hg
    rw [← hok, Create_valid p r ctx rulesReview user hne hu,
      Create_valid p r₂ ctx rulesReview user hne hu, hres, scopeSwitch_getter p r r₂ _ _ _ _ _ _ hg]
  rw [Create_valid p r ctx rulesReview user hne hu] at hok
  cases hsw : scopeSwitch p r rulesReview user (NamespaceValue ctx)
      ((r.ruleResolver ctx).1.flatMap p.BreakdownRule) (r.ruleResolver ctx).2
      [.GetEffectivePolicyRules ctx] with
  | mk result calls =>
    rw [hsw] at hok
    cases result with
    | error e => simp at hok
    | ok pair =>
      obtain ⟨filtered, err⟩ := pair
      simp only [Result.ok.injEq] at hok
      subst hok
      have hperm := perm_sortRules p.Less (compactedOrSame p filtered)
      have hsorted := sorted_sortRules p.Less hasymm htrans (compactedOrSame p filtered)
      refine ⟨filtered, err, calls, rfl, hperm, hsorted, ?_, hsame⟩
      intro htotal l hl hls
      exact sorted_perm_unique p.Less htotal l _ (hl.trans hperm.symm) hls hsorted

/-- C10 at a concrete request: the resolver returns the `get secrets` rule before the
`delete pods` rule, and the review lists them in the order of their keys. -/
theorem C10_rules_sorted_permutation_witness :
    ∃ filtered err calls,
      scopeSwitch Example.packages (Example.rest [Example.getSecrets, Example.deletePods] none)
        (Example.review none) (Example.alice []) (NamespaceValue (Example.ctx []))
        (((Example.rest [Example.getSecrets, Example.deletePods] none).ruleResolver
          (Example.ctx [])).1.flatMap Example.packages.BreakdownRule)
        ((Example.rest [Example.getSecrets, Example.deletePods] none).ruleResolver
          (Example.ctx [])).2
        [.GetEffectivePolicyRules (Example.ctx [])] = ⟨.ok (filtered, err), calls⟩ ∧
      [Example.deletePods, Example.getSecrets].Perm
        (compactedOrSame Example.packages filtered) ∧
      [Example.deletePods, Example.getSecrets].Pairwise
        (fun a b => Example.packages.Less b a = false) ∧
      ((∀ a b, Example.packages.Less a b = false → Example.packages.Less b a = false → a = b) →
        ∀ l : List PolicyRule, l.Perm (compactedOrSame Example.packages filtered) →
          l.Pairwise (fun a b => Example.packages.Less b a = false) →
          l = [Example.deletePods, Example.getSecrets]) ∧
      (∀ r₂ : REST Unit, r₂.ruleResolver (Example.ctx []) =
          (Example.rest [Example.getSecrets, Example.deletePods] none).ruleResolver
            (Example.ctx []) →
        r₂.clusterPolicyGetter =
          (Example.rest [Example.getSecrets, Example.deletePods] none).clusterPolicyGetter →
        (Create Example.packages r₂ (Example.ctx [])
          (.selfSubjectRulesReview (Example.review none))).result =
          .ok { Spec := { Scopes := none },
                Status := { Rules := [Example.deletePods, Example.getSecrets],
                            EvaluationError := "" } }) :=
  C10_rules_sorted_permutation Example.packages
    (Example.rest [Example.getSecrets, Example.deletePods] none) (Example.ctx [])
    (Example.review none) (Example.alice [])
    { Spec := { Scopes := none },
      Status := { Rules := [Example.deletePods, Example.getSecrets], EvaluationError := "" } }
    (by decide) rfl Less_asymm Less_neg_trans (by decide)

end RulesReview
